import Mathlib

/-
  Verification of the web-printer repository (web-to-png converter).

  Strings of the JavaScript source are embedded as `List Char`; JavaScript
  truthiness of optional numbers and strings is made explicit through the
  `jsTruthyQ` / `jsTruthyS` helpers (absent, 0 and "" are falsy).  Fallible
  code is embedded with `Except`; the file-system and browser side effects of
  `toPng` are embedded as an explicit event trace (`Ev`).
-/

namespace WebToPng

/-- JavaScript truthiness of an optional number: `undefined`, `null` and `0`
are falsy (`NaN` inputs are outside the model). -/
def jsTruthyQ (x : Option ℚ) : Bool :=
  match x with
  | some v => v != 0
  | none => false

/-- JavaScript truthiness of an optional string: `undefined`, `null` and the
empty string are falsy. -/
def jsTruthyS (x : Option (List Char)) : Bool :=
  match x with
  | some s => s != []
  | none => false

/-- JavaScript `a || b` on an optional string (empty string is falsy). -/
def jsOrStr (a : Option (List Char)) (b : List Char) : List Char :=
  match a with
  | some s => if s = [] then b else s
  | none => b

/-- JavaScript `Number(a || d)` on an optional number (0 is falsy). -/
def jsNumOr (a : Option ℚ) (d : ℚ) : ℚ :=
  match a with
  | some v => if v = 0 then d else v
  | none => d

/-- Exact-case `String.prototype.startsWith`: does `s` start with `pat`? -/
def startsWithL : List Char → List Char → Bool
  | [], _ => true
  | _ :: _, [] => false
  | p :: ps, c :: cs => (p == c) && startsWithL ps cs

/-- Case-insensitive prefix test, used to embed the case-insensitive regexes
of the source (`/^https?:\/\//i`, `/<script.../gi`, `/\.png$/i`). -/
def startsWithCI : List Char → List Char → Bool
  | [], _ => true
  | _ :: _, [] => false
  | p :: ps, c :: cs => (p.toLower == c.toLower) && startsWithCI ps cs

/-- Does `s` contain `pat` as a contiguous substring (exact case)? -/
def containsL (pat : List Char) : List Char → Bool
  | [] => startsWithL pat []
  | c :: cs => startsWithL pat (c :: cs) || containsL pat cs

/-- Drop everything up to and including the first case-insensitive occurrence
of `pat`; `none` when `pat` does not occur. -/
def dropThroughCI (pat : List Char) : List Char → Option (List Char)
  | [] => if startsWithCI pat [] then some [] else none
  | c :: cs =>
    if startsWithCI pat (c :: cs) then some ((c :: cs).drop pat.length)
    else dropThroughCI pat cs

theorem startsWithCI_append (p r : List Char) : startsWithCI p (p ++ r) = true := by
  induction p with
  | nil => rfl
  | cons c cs ih => simp [startsWithCI, ih]

theorem startsWithCI_length_le (p s : List Char) (h : startsWithCI p s = true) :
    p.length ≤ s.length := by
  induction p generalizing s with
  | nil => simp
  | cons c cs ih =>
    cases s with
    | nil => simp [startsWithCI] at h
    | cons d ds =>
      simp only [startsWithCI, Bool.and_eq_true] at h
      simpa [List.length_cons] using ih ds h.2

theorem dropThroughCI_length_le (pat : List Char) :
    ∀ s r, dropThroughCI pat s = some r → r.length ≤ s.length := by
  intro s
  induction s with
  | nil =>
    intro r h
    simp only [dropThroughCI] at h
    split at h
    · cases h; simp
    · cases h
  | cons c cs ih =>
    intro r h
    simp only [dropThroughCI] at h
    split at h
    · cases h
      rw [List.length_drop]
      omega
    · exact le_trans (ih r h) (by simp)

/-! ### Presets and viewport resolution (converter.js lines 17-23 and 96-103) -/

/-- The `PRESETS` table of converter.js: five named presets. -/
def PRESETS : List (List Char × ℚ × ℚ) :=
  [("og".toList, 1200, 630),
   ("square".toList, 1080, 1080),
   ("story".toList, 1080, 1920),
   ("portrait".toList, 1200, 1500),
   ("banner".toList, 1600, 900)]

/-- `PRESETS[preset]`: look the name up in the preset table. -/
def presetLookup (name : List Char) : Option (ℚ × ℚ) :=
  (PRESETS.find? (fun e => e.1 == name)).map (fun e => e.2)

/-- `const p = PRESETS[preset] || PRESETS.og` followed by
`return (p.width, p.height)`; `PRESETS.og` is `(1200, 630)`. -/
def presetViewport (name : List Char) : ℚ × ℚ :=
  match presetLookup name with
  | some p => p
  | none => (1200, 630)

/-- A parsed `--clip x,y,width,height` rectangle (converter.js `parseClip`). -/
structure Clip where
  x : ℚ
  y : ℚ
  width : ℚ
  height : ℚ
deriving DecidableEq, Repr

/-- `resolveViewport` of converter.js lines 96-103: explicit truthy
width/height win, then a clip with truthy width/height (ceiled), then the
preset table with `og` as fallback for unknown names. -/
def resolveViewport (preset : List Char) (width height : Option ℚ)
    (clip : Option Clip) : ℚ × ℚ :=
  if jsTruthyQ width && jsTruthyQ height then (width.getD 0, height.getD 0)
  else
    match clip with
    | some c =>
      if c.width != 0 && c.height != 0 then ((⌈c.width⌉ : ℤ), (⌈c.height⌉ : ℤ))
      else presetViewport preset
    | none => presetViewport preset

/-! ### Script stripping (converter.js `sanitizeHtml`, lines 36-39) -/

/-- The pattern `<script` of the regex `/<script[\s\S]*?>[\s\S]*?<\/script>/gi`. -/
def scriptOpenPat : List Char := "<script".toList

/-- The pattern `</script>` of the same regex. -/
def scriptClosePat : List Char := "</script>".toList

/-- One lazy match of `/<script[\s\S]*?>[\s\S]*?<\/script>/i` anchored at the
start of `s`: requires `<script`, then the first `>` after it such that a
`</script>` still follows, and ends after the first such `</script>`.
Returns the remainder of the string after the match. -/
def matchScriptAt (s : List Char) : Option (List Char) :=
  if startsWithCI scriptOpenPat s then
    match dropThroughCI ['>'] (s.drop 7) with
    | some afterGt => dropThroughCI scriptClosePat afterGt
    | none => none
  else none

theorem matchScriptAt_length_lt (s r : List Char) (h : matchScriptAt s = some r) :
    r.length < s.length := by
  simp only [matchScriptAt] at h
  split at h
  next hpre =>
    have h7 : 7 ≤ s.length := startsWithCI_length_le scriptOpenPat s hpre
    cases hgt : dropThroughCI ['>'] (s.drop 7) with
    | none => rw [hgt] at h; cases h
    | some afterGt =>
      rw [hgt] at h
      have h1 : afterGt.length ≤ (s.drop 7).length :=
        dropThroughCI_length_le ['>'] (s.drop 7) afterGt hgt
      have h2 : r.length ≤ afterGt.length :=
        dropThroughCI_length_le scriptClosePat afterGt r h
      have h3 : (s.drop 7).length = s.length - 7 := List.length_drop 7 s
      omega
  next => cases h

/-- The global regex replacement
`html.replace(/<script[\s\S]*?>[\s\S]*?<\/script>/gi, "")`: scan left to
right, removing each lazy match and continuing after it.  Structured with a
fuel argument so that it computes by kernel reduction; each step consumes at
least one character, so `s.length` fuel always suffices (see
`stripScriptsFuel_congr`). -/
def stripScriptsFuel : Nat → List Char → List Char
  | 0, s => s
  | _ + 1, [] => []
  | fuel + 1, c :: cs =>
    match matchScriptAt (c :: cs) with
    | some rest => stripScriptsFuel fuel rest
    | none => c :: stripScriptsFuel fuel cs

/-- The script-stripping pass of `sanitizeHtml` (converter.js line 38). -/
def stripScripts (s : List Char) : List Char :=
  stripScriptsFuel s.length s

theorem stripScriptsFuel_congr :
    ∀ f1 f2 s, s.length ≤ f1 → s.length ≤ f2 → stripScriptsFuel f1 s = stripScriptsFuel f2 s := by
  intro f1
  induction f1 with
  | zero =>
    intro f2 s h1 _
    have hs : s = [] := List.length_eq_zero.mp (Nat.le_zero.mp h1)
    subst hs
    cases f2 with
    | zero => rfl
    | succ g => rfl
  | succ f ih =>
    intro f2 s h1 h2
    cases s with
    | nil =>
      cases f2 with
      | zero => rfl
      | succ g => rfl
    | cons c cs =>
      cases f2 with
      | zero => simp at h2
      | succ g =>
        simp only [stripScriptsFuel]
        cases hm : matchScriptAt (c :: cs) with
        | some rest =>
          have hlt := matchScriptAt_length_lt (c :: cs) rest hm
          simp only [List.length_cons] at h1 h2 hlt
          exact ih g rest (by omega) (by omega)
        | none =>
          simp only [List.length_cons] at h1 h2
          rw [ih g cs (by omega) (by omega)]

theorem stripScripts_cons_some (c : Char) (cs rest : List Char)
    (h : matchScriptAt (c :: cs) = some rest) :
    stripScripts (c :: cs) = stripScripts rest := by
  have hlt := matchScriptAt_length_lt (c :: cs) rest h
  simp only [List.length_cons] at hlt
  simp only [stripScripts, List.length_cons, stripScriptsFuel, h]
  exact stripScriptsFuel_congr cs.length rest.length rest (by omega) le_rfl

theorem stripScripts_cons_none (c : Char) (cs : List Char)
    (h : matchScriptAt (c :: cs) = none) :
    stripScripts (c :: cs) = c :: stripScripts cs := by
  simp only [stripScripts, List.length_cons, stripScriptsFuel, h]

/-- `sanitizeHtml` of converter.js lines 36-39. -/
def sanitizeHtml (html : List Char) (allowScripts : Bool) : List Char :=
  if allowScripts then html else stripScripts html

/-! ### Text normalization (converter.js `textToMarkdown`, lines 41-47) -/

/-- `String.prototype.split(/\n{2,}/)`: cut the string at each maximal run of
two or more newlines.  `pending` counts newlines seen but not yet committed,
`acc` holds the current block reversed. -/
def splitBlocksAux : List Char → Nat → List Char → List (List Char)
  | [], pending, acc =>
    if 2 ≤ pending then [acc.reverse, []]
    else if pending = 1 then [('\n' :: acc).reverse]
    else [acc.reverse]
  | c :: rest, pending, acc =>
    if c = '\n' then splitBlocksAux rest (pending + 1) acc
    else if 2 ≤ pending then acc.reverse :: splitBlocksAux rest 0 [c]
    else if pending = 1 then splitBlocksAux rest 0 (c :: '\n' :: acc)
    else splitBlocksAux rest 0 (c :: acc)

/-- `text.split(/\n{2,}/)`. -/
def splitBlocks (s : List Char) : List (List Char) :=
  splitBlocksAux s 0 []

/-- `block.replace(/\n/g, " ")`. -/
def collapseNewlines (b : List Char) : List Char :=
  b.map (fun c => if c = '\n' then ' ' else c)

/-- `String.prototype.trim()` (whitespace per Lean's `Char.isWhitespace`). -/
def trimJs (b : List Char) : List Char :=
  ((b.dropWhile Char.isWhitespace).reverse.dropWhile Char.isWhitespace).reverse

/-- `textToMarkdown` of converter.js lines 41-47: split on blank-line runs,
collapse inner newlines to spaces, trim, drop empty blocks, join with a
blank line. -/
def textToMarkdown (s : List Char) : List Char :=
  List.intercalate ['\n', '\n']
    (((splitBlocks s).map (fun b => trimJs (collapseNewlines b))).filter
      (fun b => b != []))

/-! ### Template rendering (converter.js `renderTemplate`, lines 80-94) -/

/-- Global replacement of the literal string `pat` (as in a `/.../g` regex
replace with an empty-capture-free literal pattern): scan left to right and
continue after each replacement.  Fueled for kernel computability; each step
consumes at least one character, so `s.length` fuel suffices. -/
def replaceAllFuel (pat rep : List Char) : Nat → List Char → List Char
  | 0, s => s
  | _ + 1, [] => []
  | fuel + 1, c :: cs =>
    if pat ≠ [] ∧ startsWithL pat (c :: cs) = true then
      rep ++ replaceAllFuel pat rep fuel ((c :: cs).drop pat.length)
    else c :: replaceAllFuel pat rep fuel cs

/-- `s.replace(pat-as-global-regex, rep)` for a literal pattern. -/
def replaceAllL (pat rep s : List Char) : List Char :=
  replaceAllFuel pat rep s.length s

/-- `String.prototype.replace` with a plain string pattern: replace the first
occurrence only. -/
def replaceFirstL (pat rep : List Char) : List Char → List Char
  | [] => []
  | c :: cs =>
    if pat ≠ [] ∧ startsWithL pat (c :: cs) = true then rep ++ (c :: cs).drop pat.length
    else c :: replaceFirstL pat rep cs

/-- `renderTemplate` of converter.js lines 80-94, with the template file's
content passed in (the file read is external I/O): replace all title and
body placeholders, then put the custom style block at the styles placeholder
when the template has one, else inject it before the closing head tag when
custom CSS is present. -/
def renderTemplate (templateContent title bodyHtml : List Char)
    (customCss : Option (List Char)) : List Char :=
  let html1 := replaceAllL "\x7b\x7btitle\x7d\x7d".toList title templateContent
  let html2 := replaceAllL "\x7b\x7bbody\x7d\x7d".toList bodyHtml html1
  let block :=
    if jsTruthyS customCss then
      "<style>".toList ++ customCss.getD [] ++ "</style>".toList
    else []
  if containsL "\x7b\x7bstyles\x7d\x7d".toList html2 then
    replaceFirstL "\x7b\x7bstyles\x7d\x7d".toList block html2
  else if jsTruthyS customCss then
    replaceFirstL "</head>".toList (block ++ "</head>".toList) html2
  else html2

/-! ### Output paths (converter.js lines 236-237 and 310) -/

/-- Case-insensitive test that `s` ends with `pat` (the `/\.png$/i` regex). -/
def endsWithCI (pat s : List Char) : Bool :=
  decide (pat.length ≤ s.length) && startsWithCI pat (s.drop (s.length - pat.length))

/-- `outputPng.replace(/\.png$/i, "")`. -/
def stripPngSuffixCI (s : List Char) : List Char :=
  if endsWithCI ".png".toList s then s.take (s.length - 4) else s

/-! ### CLI dimension-pair check (converter.js `parseArgs`, lines 375-381) -/

/-- Errors of the converter.js CLI layer, under the names the spec gives
them (the source throws plain `Error`s with human-readable messages). -/
inductive CliError where
  | MissingOutput
  | IncompleteDimensionPair
deriving DecidableEq, Repr

/-- The width/height pair check of `parseArgs` lines 375-381:
`if (args.width && !args.height) throw` and symmetrically — a JavaScript
truthiness test, so a width or height of 0 counts as absent. -/
def parseArgsDimCheck (width height : Option ℚ) : Except CliError Unit :=
  if jsTruthyQ width && !jsTruthyQ height then .error .IncompleteDimensionPair
  else if !jsTruthyQ width && jsTruthyQ height then .error .IncompleteDimensionPair
  else .ok ()

/-! ### Capture-target selection (converter.js lines 163-185) -/

/-- A region captured by `page.screenshot`. -/
inductive Region where
  | clipRect (c : Clip)
  | fullPage
  | element (sel : List Char)
deriving DecidableEq, Repr

/-- The capture-target precedence of `renderPngWithPlaywright` lines 163-185:
explicit clip, then the full-page flag, then a `.card` element, then a
`.container` element, then full page.  Returns the region together with the
`mode` string recorded in the metadata. -/
def selectCapture (clip : Option Clip) (fullPage hasCard hasContainer : Bool) :
    Region × List Char :=
  match clip with
  | some c => (.clipRect c, "clip".toList)
  | none =>
    if fullPage then (.fullPage, "fullPage".toList)
    else if hasCard then (.element ".card".toList, "card".toList)
    else if hasContainer then (.element ".container".toList, "container".toList)
    else (.fullPage, "fullPage".toList)

/-! ### Network interception (converter.js lines 138-147) -/

/-- `Array.isArray(networkWhitelist) && networkWhitelist.length > 0`:
whether the `page.route` interception handler is installed at all. -/
def routeInstalled (wl : Option (List (List Char))) : Bool :=
  match wl with
  | some l => decide (0 < l.length)
  | none => false

/-- The route handler's decision (converter.js lines 140-146): `true` means
`route.continue()` (the request URL starts with some allow-listed prefix),
`false` means `route.abort()`. -/
def routeAllows (wl : List (List Char)) (url : List Char) : Bool :=
  wl.any (fun p => startsWithL p url)

/-- The `/^https?:\/\//i` and `/^file:\/\//i` tests of converter.js line 149
choosing `page.goto` over `page.setContent`. -/
def isNavUrl (s : List Char) : Bool :=
  startsWithCI "http://".toList s || startsWithCI "https://".toList s ||
    startsWithCI "file://".toList s

/-! ### The `toPng` pipeline (converter.js lines 192-319)

File-system and browser side effects are embedded as an explicit event
trace.  External collaborators (file reads, the Markdown parser, the
browser, `node:crypto`, the clock) enter through a `ToPngEnv` record; the
file system is assumed fresh, so a file exists exactly when the current
invocation wrote it. -/

/-- The rendering-option bag of `toPng` (converter.js lines 202, 208-210,
244-248, 256-262). -/
structure PngOptions where
  format : Option (List Char)
  preset : Option (List Char)
  width : Option ℚ
  height : Option ℚ
  device_scale_factor : Option ℚ
  full_page : Bool
  clip : Option Clip
  title : Option (List Char)
  wait_until : Option (List Char)
  timeout_ms : Option ℚ

/-- The named arguments of `toPng` (converter.js lines 192-203). -/
structure ToPngArgs where
  inputPath : Option (List Char)
  content : Option (List Char)
  url : Option (List Char)
  outputPath : Option (List Char)
  style : List Char
  customCssPath : Option (List Char)
  keepHtml : Bool
  allowScripts : Bool
  networkWhitelist : Option (List (List Char))
  options : PngOptions

/-- How the embedded browser behaves on this invocation: the Playwright
module fails to load (`renderPngWithPlaywright` returns `null`), an awaited
browser call throws, or rendering succeeds and reports a version string. -/
inductive RenderOutcome where
  | unavailable
  | crash
  | success (version : List Char)
deriving DecidableEq, Repr

/-- The external collaborators of one `toPng` invocation. -/
structure ToPngEnv where
  fileContent : List Char → Option (List Char)
  templateContent : List Char → Option (List Char)
  md2html : List Char → List Char
  sha256hex : List Char → List Char
  nowIso : List Char
  outcome : RenderOutcome
  hasCard : Bool
  hasContainer : Bool

/-- The failures `toPng` can surface (the source throws plain `Error`s;
`BrowserCrash` stands for any exception escaping an awaited browser call). -/
inductive PngError where
  | MissingInput
  | FileNotFound (p : List Char)
  | RenderEngineUnavailable
  | BrowserCrash
deriving DecidableEq, Repr

/-- One observable side effect of `toPng`. -/
inductive Ev where
  | write (p : List Char)
  | del (p : List Char)
  | browse (target waitPolicy : List Char) (timeoutMs : ℚ)
  | shot (r : Region) (p : List Char)
deriving DecidableEq, Repr

/-- The metadata sidecar object (converter.js lines 299-309). -/
structure SidecarMeta where
  engine : List Char
  generatedAt : List Char
  preset : List Char
  width : ℚ
  height : ℚ
  deviceScaleFactor : ℚ
  style : List Char
  screenshotMode : List Char
  inputHash : List Char
deriving DecidableEq, Repr

/-- The value `toPng` returns (converter.js lines 313-318). -/
structure ToPngResult where
  pngPath : List Char
  htmlPath : Option (List Char)
  meta : SidecarMeta
  metaPath : List Char
deriving DecidableEq, Repr

/-- `options.wait_until || "networkidle"` (converter.js line 208). -/
def resolvedWaitUntil (o : PngOptions) : List Char :=
  jsOrStr o.wait_until "networkidle".toList

/-- `Number(options.timeout_ms || 30000)` (converter.js line 209). -/
def resolvedTimeoutMs (o : PngOptions) : ℚ :=
  jsNumOr o.timeout_ms 30000

/-- `readText` (converter.js lines 25-30): throws when the file is absent. -/
def readTextE (env : ToPngEnv) (p : List Char) : Except PngError (List Char) :=
  match env.fileContent p with
  | some t => .ok t
  | none => .error (.FileNotFound p)

/-- `rawContent` after converter.js lines 212-214: empty, overridden by the
input file's text when `inputPath` is truthy, then by `content` when that is
truthy. -/
def rawContentOf (env : ToPngEnv) (a : ToPngArgs) : Except PngError (List Char) :=
  match (if jsTruthyS a.inputPath then readTextE env (a.inputPath.getD []) else .ok []) with
  | .error e => .error e
  | .ok r => .ok (if jsTruthyS a.content then a.content.getD [] else r)

/-- `customCss` (converter.js line 216). -/
def customCssOf (env : ToPngEnv) (a : ToPngArgs) :
    Except PngError (Option (List Char)) :=
  if jsTruthyS a.customCssPath then
    match readTextE env (a.customCssPath.getD []) with
    | .error e => .error e
    | .ok t => .ok (some t)
  else .ok none

/-- `html` after converter.js lines 218-234: the URL itself for URL input,
otherwise the normalized, sanitized, templated document. -/
def htmlOf (env : ToPngEnv) (a : ToPngArgs) (rawContent : List Char)
    (customCss : Option (List Char)) : Except PngError (List Char) :=
  if jsTruthyS a.url then .ok (a.url.getD [])
  else
    let normalized :=
      if a.options.format = some "text".toList then textToMarkdown rawContent
      else rawContent
    let body :=
      if a.options.format = some "html".toList then normalized
      else env.md2html normalized
    let body2 := sanitizeHtml body a.allowScripts
    match env.templateContent a.style with
    | some tpl =>
      .ok (renderTemplate tpl (jsOrStr a.options.title "Web-to-PNG".toList) body2 customCss)
    | none => .error (.FileNotFound a.style)

/-- `outputPng` (converter.js line 236; `path.resolve` is external I/O and
is not modelled). -/
def outputPngOf (a : ToPngArgs) : List Char :=
  jsOrStr a.outputPath "output.png".toList

/-- `outputHtml` (converter.js line 237). -/
def outputHtmlOf (a : ToPngArgs) : List Char :=
  stripPngSuffixCI (outputPngOf a) ++ ".html".toList

/-- `metaPath` (converter.js line 310). -/
def metaPathOf (a : ToPngArgs) : List Char :=
  stripPngSuffixCI (outputPngOf a) ++ ".meta.json".toList

/-- The `file://` URL of converter.js line 272. -/
def fileUrlOf (p : List Char) : List Char :=
  "file://".toList ++ p

/-- `rawContent || url || ""` (converter.js line 308). -/
def hashSourceOf (a : ToPngArgs) (rawContent : List Char) : List Char :=
  if rawContent ≠ [] then rawContent else jsOrStr a.url []

/-- The pure part of `toPng` before any file write (converter.js lines
204-248): input presence check, file reads, HTML production, viewport. -/
structure Prep where
  rawContent : List Char
  html : List Char
  viewport : ℚ × ℚ
deriving DecidableEq, Repr

/-- Runs converter.js lines 204-248 (everything before the first write). -/
def prepare (env : ToPngEnv) (a : ToPngArgs) : Except PngError Prep :=
  if jsTruthyS a.inputPath || jsTruthyS a.content || jsTruthyS a.url then
    match rawContentOf env a with
    | .error e => .error e
    | .ok raw =>
      match customCssOf env a with
      | .error e => .error e
      | .ok css =>
        match htmlOf env a raw css with
        | .error e => .error e
        | .ok h =>
          .ok ⟨raw, h,
            resolveViewport (jsOrStr a.options.preset "og".toList)
              a.options.width a.options.height a.options.clip⟩
  else .error .MissingInput

/-- The `meta` object of converter.js lines 299-309. -/
def mkMeta (env : ToPngEnv) (a : ToPngArgs) (p : Prep) (version mode : List Char) :
    SidecarMeta :=
  ⟨"chromium:".toList ++ version,
   env.nowIso,
   jsOrStr a.options.preset "og".toList,
   p.viewport.1, p.viewport.2,
   a.options.device_scale_factor.getD 2,
   a.style,
   mode,
   env.sha256hex (hashSourceOf a p.rawContent)⟩

/-- `toPng` (converter.js lines 192-319) as a pure function returning its
result or error together with the ordered trace of its side effects.
For non-URL input the intermediate HTML is written at line 239-241 (when
`keepHtml`) and again unconditionally at line 271; the browser then renders;
on success only, the HTML is unlinked when `keepHtml` is false (line 295-297)
and the metadata sidecar is written (line 311). -/
def toPngModel (env : ToPngEnv) (a : ToPngArgs) :
    Except PngError ToPngResult × List Ev :=
  match prepare env a with
  | .error e => (.error e, [])
  | .ok p =>
    let tUrl := jsTruthyS a.url
    let outHtml := outputHtmlOf a
    let outPng := outputPngOf a
    let ev1 : List Ev := if a.keepHtml && !tUrl then [.write outHtml] else []
    let ev2 : List Ev := if tUrl then [] else [.write outHtml]
    let target := if tUrl then a.url.getD [] else fileUrlOf outHtml
    let nav : Ev := .browse target (resolvedWaitUntil a.options) (resolvedTimeoutMs a.options)
    match env.outcome with
    | .unavailable => (.error .RenderEngineUnavailable, ev1 ++ ev2)
    | .crash => (.error .BrowserCrash, ev1 ++ ev2 ++ [nav])
    | .success v =>
      let rm := selectCapture a.options.clip a.options.full_page env.hasCard env.hasContainer
      let ev3 : List Ev := if !a.keepHtml && !tUrl then [.del outHtml] else []
      let meta := mkMeta env a p v rm.2
      (.ok ⟨outPng, if a.keepHtml then some outHtml else none, meta, metaPathOf a⟩,
       ev1 ++ ev2 ++ [nav, .shot rm.1 outPng] ++ ev3 ++ [.write (metaPathOf a)])

/-! ### The snap renderer's request-validation layer

The `render` function of `src/snap/renderer.ts` is not among the repository's
sources; only its caller `src/snap/command.ts` is.  Its validation layer is
therefore modelled from the specification (Safety Policy §4.3, Viewport
Resolver §4.4, Render Driver §4.5). -/

/-- Modelled from the spec: the error kinds of the missing
`src/snap/renderer.ts` validation layer, as named in spec §7. -/
inductive SnapError where
  | UnsafeInputRejected
  | DimensionOutOfRange (field : List Char)
  | InvalidWaitPolicy
deriving DecidableEq, Repr

/-- Modelled from the spec: `src/snap/renderer.ts` is missing; spec §4.3
calls an input remote when its scheme is `http://` or `https://`. -/
def isRemoteUrl (s : List Char) : Bool :=
  startsWithL "http://".toList s || startsWithL "https://".toList s

/-- Modelled from the spec: `src/snap/renderer.ts` is missing; spec §4.5
accepts exactly the waitUntil policies `load`, `domcontentloaded`,
`networkidle`. -/
def waitPolicies : List (List Char) :=
  ["load".toList, "domcontentloaded".toList, "networkidle".toList]

/-- Modelled from the spec: `src/snap/renderer.ts` is missing; spec §4.5
says an unrecognized waitUntil value fails fast with `InvalidWaitPolicy`. -/
def validateWaitUntil (wu : List Char) : Except SnapError Unit :=
  if wu ∈ waitPolicies then .ok () else .error .InvalidWaitPolicy

/-- Modelled from the spec: `src/snap/renderer.ts` is missing; spec §4.4
requires explicit width and height in `[100, 5000]` and the device scale
factor in `[1, 4]`, failing with `DimensionOutOfRange` naming the offending
field. -/
def validateDimensions (w h : ℤ) (scale : ℚ) : Except SnapError Unit :=
  if w < 100 ∨ 5000 < w then .error (.DimensionOutOfRange "width".toList)
  else if h < 100 ∨ 5000 < h then .error (.DimensionOutOfRange "height".toList)
  else if scale < 1 ∨ 4 < scale then .error (.DimensionOutOfRange "scale".toList)
  else .ok ()

/-- Modelled from the spec: the request-validation phase of the missing
`src/snap/renderer.ts`, as called by `src/snap/command.ts`.  Per spec §4.3
a safe-mode remote-URL input is rejected before anything else and no
navigation occurs; explicit dimensions and the waitUntil policy are
validated before navigation; only then does the driver navigate (the
`Ev.browse` event). -/
def snapRender (safe : Bool) (input : List Char) (width height : Option ℤ)
    (scale : ℚ) (waitUntil : List Char) (timeoutMs : ℚ) :
    Except SnapError Unit × List Ev :=
  if safe && isRemoteUrl input then (.error .UnsafeInputRejected, [])
  else
    match (match width, height with
           | some w, some h => validateDimensions w h scale
           | _, _ => .ok ()) with
    | .error e => (.error e, [])
    | .ok _ =>
      match validateWaitUntil waitUntil with
      | .error e => (.error e, [])
      | .ok _ => (.ok (), [.browse input waitUntil timeoutMs])

/-! ## Claims -/

/-- C1: with safe mode enabled and a remote-URL input (scheme `http://` or
`https://`), the conversion fails with `UnsafeInputRejected` and its event
trace is empty — in particular no navigation is attempted. -/
theorem c1_safe_remote_rejected (input : List Char) (w h : Option ℤ)
    (scale timeoutMs : ℚ) (waitUntil : List Char)
    (hrem : isRemoteUrl input = true) :
    snapRender true input w h scale waitUntil timeoutMs =
      (.error .UnsafeInputRejected, []) := by
  simp [snapRender, hrem]

theorem c1_safe_remote_rejected_witness :
    isRemoteUrl ("http://example.com".toList) = true ∧
      snapRender true ("http://example.com".toList) none none 2
        ("networkidle".toList) 30000 = (.error .UnsafeInputRejected, []) :=
  ⟨by decide,
   c1_safe_remote_rejected ("http://example.com".toList) none none 2 30000
     ("networkidle".toList) (by decide)⟩

/-- C2: with explicit width and height, dimension validation succeeds
exactly when both dimensions lie in `[100, 5000]` and the scale factor lies
in `[1, 4]`; any violation yields a `DimensionOutOfRange` error naming some
field. -/
theorem c2_dimension_bounds (w h : ℤ) (s : ℚ) :
    (validateDimensions w h s = .ok () ↔
      (100 ≤ w ∧ w ≤ 5000 ∧ 100 ≤ h ∧ h ≤ 5000 ∧ 1 ≤ s ∧ s ≤ 4)) ∧
    (¬(100 ≤ w ∧ w ≤ 5000 ∧ 100 ≤ h ∧ h ≤ 5000 ∧ 1 ≤ s ∧ s ≤ 4) →
      ∃ f, validateDimensions w h s = .error (.DimensionOutOfRange f)) := by
  unfold validateDimensions
  split_ifs with h1 h2 h3
  · refine ⟨⟨fun hc => ?_, fun hb => ?_⟩, fun _ => ⟨_, rfl⟩⟩
    · cases hc
    · obtain ⟨hb1, hb2, -⟩ := hb
      exfalso; omega
  · refine ⟨⟨fun hc => ?_, fun hb => ?_⟩, fun _ => ⟨_, rfl⟩⟩
    · cases hc
    · obtain ⟨-, -, hb3, hb4, -⟩ := hb
      exfalso; omega
  · refine ⟨⟨fun hc => ?_, fun hb => ?_⟩, fun _ => ⟨_, rfl⟩⟩
    · cases hc
    · obtain ⟨-, -, -, -, hs1, hs2⟩ := hb
      rcases h3 with h3 | h3 <;> linarith
  · push_neg at h1 h2 h3
    refine ⟨⟨fun _ => ⟨h1.1, h1.2, h2.1, h2.2, h3.1, h3.2⟩, fun _ => rfl⟩,
      fun hnb => absurd ⟨h1.1, h1.2, h2.1, h2.2, h3.1, h3.2⟩ hnb⟩

theorem c2_dimension_bounds_witness :
    validateDimensions 300 400 2 = .ok () ∧
      (∃ f, validateDimensions 50 400 2 = .error (.DimensionOutOfRange f)) :=
  ⟨(c2_dimension_bounds 300 400 2).1.mpr (by norm_num),
   (c2_dimension_bounds 50 400 2).2 (by norm_num)⟩

/-- C3: the waitUntil policy defaults to `networkidle` and the navigation
timeout defaults to 30000 ms (converter.js lines 208-209); a waitUntil value
outside load/domcontentloaded/networkidle makes the renderer fail with
`InvalidWaitPolicy` on an empty event trace, before any navigation. -/
theorem c3_wait_policy :
    (∀ o : PngOptions, o.wait_until = none → resolvedWaitUntil o = "networkidle".toList) ∧
    (∀ o : PngOptions, o.timeout_ms = none → resolvedTimeoutMs o = 30000) ∧
    (∀ (input wu : List Char) (scale timeoutMs : ℚ), wu ∉ waitPolicies →
      snapRender false input none none scale wu timeoutMs =
        (.error .InvalidWaitPolicy, [])) := by
  refine ⟨fun o ho => ?_, fun o ho => ?_, fun input wu scale timeoutMs hwu => ?_⟩
  · simp [resolvedWaitUntil, jsOrStr, ho]
  · simp [resolvedTimeoutMs, jsNumOr, ho]
  · simp [snapRender, validateWaitUntil, hwu]

theorem c3_wait_policy_witness :
    resolvedWaitUntil ⟨none, none, none, none, none, false, none, none, none, none⟩ =
        "networkidle".toList ∧
      resolvedTimeoutMs ⟨none, none, none, none, none, false, none, none, none, none⟩ = 30000 ∧
      snapRender false ("page.html".toList) none none 2 ("eager".toList) 30000 =
        (.error .InvalidWaitPolicy, []) :=
  ⟨c3_wait_policy.1 _ rfl, c3_wait_policy.2.1 _ rfl,
   c3_wait_policy.2.2 ("page.html".toList) ("eager".toList) 2 30000 (by decide)⟩

/-- C5: capture-region precedence of `renderPngWithPlaywright`: an explicit
clip is captured exactly, whatever `.card`/`.container` elements exist; else
the full-page flag captures the full page; else a `.card` element; else a
`.container` element; else the full page. -/
theorem c5_capture_precedence :
    (∀ (c : Clip) (fp hc hcont : Bool),
      selectCapture (some c) fp hc hcont = (.clipRect c, "clip".toList)) ∧
    (∀ hc hcont : Bool, selectCapture none true hc hcont = (.fullPage, "fullPage".toList)) ∧
    (∀ hcont : Bool, selectCapture none false true hcont =
      (.element ".card".toList, "card".toList)) ∧
    selectCapture none false false true = (.element ".container".toList, "container".toList) ∧
    selectCapture none false false false = (.fullPage, "fullPage".toList) :=
  ⟨fun _ _ _ _ => rfl, fun _ _ => rfl, fun _ => rfl, rfl, rfl⟩

/-- C6: a non-empty allow-list installs interception, and a request is
permitted exactly when its URL starts with some allow-listed prefix; with no
allow-list (or an empty one) no interception is installed — and the
converter's interception logic takes no safe-mode input at all, so this is
independent of safe mode. -/
theorem c6_network_allowlist :
    (∀ (wl : List (List Char)) (url : List Char), wl ≠ [] →
      routeInstalled (some wl) = true ∧
        (routeAllows wl url = true ↔ ∃ p ∈ wl, startsWithL p url = true)) ∧
    routeInstalled none = false ∧
    routeInstalled (some []) = false := by
  refine ⟨fun wl url hne => ⟨?_, ?_⟩, rfl, rfl⟩
  · cases wl with
    | nil => exact absurd rfl hne
    | cons p ps => simp [routeInstalled]
  · simp [routeAllows, List.any_eq_true]

theorem c6_network_allowlist_witness :
    routeInstalled (some ["https://cdn.example/".toList]) = true ∧
      (routeAllows ["https://cdn.example/".toList] ("https://cdn.example/app.js".toList) = true ↔
        ∃ p ∈ ["https://cdn.example/".toList],
          startsWithL p ("https://cdn.example/app.js".toList) = true) :=
  c6_network_allowlist.1 ["https://cdn.example/".toList] ("https://cdn.example/app.js".toList)
    (by decide)

/-- C7 counterexample: `--width 0` with no `--height` supplies exactly one of
the two dimensions, yet the pair check of `parseArgs` passes, because the
JavaScript truthiness test treats a width of 0 as absent. -/
theorem c7_counterexample :
    (some (0 : ℚ)).isSome = true ∧ (none : Option ℚ).isSome = false ∧
      parseArgsDimCheck (some 0) none = .ok () := by
  refine ⟨rfl, rfl, ?_⟩
  simp [parseArgsDimCheck, jsTruthyQ]

/-- C7 (amended): supplying exactly one of width/height with a truthy
(nonzero) value fails with `IncompleteDimensionPair`; a supplied 0 counts as
absent. -/
theorem c7_incomplete_pair (w h : Option ℚ) (hne : jsTruthyQ w ≠ jsTruthyQ h) :
    parseArgsDimCheck w h = .error .IncompleteDimensionPair := by
  unfold parseArgsDimCheck
  cases hw : jsTruthyQ w <;> cases hh : jsTruthyQ h <;> simp_all

theorem c7_incomplete_pair_witness :
    jsTruthyQ (some (300 : ℚ)) ≠ jsTruthyQ (none : Option ℚ) ∧
      parseArgsDimCheck (some 300) none = .error .IncompleteDimensionPair :=
  ⟨by decide, c7_incomplete_pair (some 300) none (by decide)⟩

/-- C4 counterexample: the preset table has five entries, not six; a
provided-but-zero explicit width is ignored rather than used as-is; and a
clip rectangle with negative (nonzero, non-positive) dimensions is ceiled
and used rather than falling through to the preset. -/
theorem c4_counterexample :
    PRESETS.length = 5 ∧ PRESETS.length ≠ 6 ∧
      resolveViewport ("og".toList) (some 0) (some 500) none = (1200, 630) ∧
      ((1200 : ℚ), (630 : ℚ)) ≠ ((0 : ℚ), (500 : ℚ)) ∧
      resolveViewport ("og".toList) none none (some ⟨0, 0, -5, -7⟩) = (-5, -7) ∧
      ((-5 : ℚ), (-7 : ℚ)) ≠ ((1200 : ℚ), (630 : ℚ)) := by
  refine ⟨rfl, by decide, by decide, by decide, ?_, by decide⟩
  show resolveViewport ("og".toList) none none (some ⟨0, 0, -5, -7⟩) = (-5, -7)
  decide

/-- C4 (amended): viewport resolution priority, first match wins: explicit
truthy (nonzero) width and height are used as-is; else a clip with truthy
width and height gives the ceiling of the clip dimensions; else the preset
name is looked up in the fixed five-entry table, unknown names falling back
to the default preset `og` (1200 by 630). -/
theorem c4_viewport_priority :
    (∀ (pr : List Char) (cl : Option Clip) (w h : ℚ), w ≠ 0 → h ≠ 0 →
      resolveViewport pr (some w) (some h) cl = (w, h)) ∧
    (∀ (pr : List Char) (wo ho : Option ℚ) (c : Clip),
      (jsTruthyQ wo && jsTruthyQ ho) = false → c.width ≠ 0 → c.height ≠ 0 →
      resolveViewport pr wo ho (some c) = (((⌈c.width⌉ : ℤ) : ℚ), ((⌈c.height⌉ : ℤ) : ℚ))) ∧
    (∀ (pr : List Char) (wo ho : Option ℚ),
      (jsTruthyQ wo && jsTruthyQ ho) = false →
      resolveViewport pr wo ho none = presetViewport pr) ∧
    (∀ (pr : List Char) (wo ho : Option ℚ) (c : Clip),
      (jsTruthyQ wo && jsTruthyQ ho) = false → (c.width = 0 ∨ c.height = 0) →
      resolveViewport pr wo ho (some c) = presetViewport pr) ∧
    PRESETS.length = 5 ∧
    (∀ pr, presetLookup pr = none → presetViewport pr = (1200, 630)) ∧
    presetLookup ("og".toList) = some (1200, 630) := by
  refine ⟨fun pr cl w h hw hh => ?_, fun pr wo ho c hf hcw hch => ?_,
    fun pr wo ho hf => ?_, fun pr wo ho c hf hz => ?_, rfl, fun pr hl => ?_, by decide⟩
  · simp [resolveViewport, jsTruthyQ, hw, hh]
  · have hc : (c.width != 0 && c.height != 0) = true := by
      simp [bne_iff_ne, hcw, hch]
    simp [resolveViewport, hf, hc]
  · simp [resolveViewport, hf]
  · have hc : (c.width != 0 && c.height != 0) = false := by
      rcases hz with hz | hz <;> simp [hz]
    simp [resolveViewport, hf, hc]
  · simp [presetViewport, hl]

theorem c4_viewport_priority_witness :
    resolveViewport ("og".toList) (some 800) (some 600) none = (800, 600) ∧
      resolveViewport ("og".toList) none none (some ⟨0, 0, 300, 200⟩) =
        (((⌈(300 : ℚ)⌉ : ℤ) : ℚ), ((⌈(200 : ℚ)⌉ : ℤ) : ℚ)) ∧
      resolveViewport ("banner".toList) none none none = presetViewport ("banner".toList) ∧
      resolveViewport ("og".toList) none (some 400) (some ⟨0, 0, 0, 5⟩) =
        presetViewport ("og".toList) ∧
      presetViewport ("wide".toList) = (1200, 630) :=
  ⟨c4_viewport_priority.1 ("og".toList) none 800 600 (by norm_num) (by norm_num),
   c4_viewport_priority.2.1 ("og".toList) none none ⟨0, 0, 300, 200⟩ (by decide)
     (by norm_num) (by norm_num),
   c4_viewport_priority.2.2.1 ("banner".toList) none none (by decide),
   c4_viewport_priority.2.2.2.1 ("og".toList) none (some 400) ⟨0, 0, 0, 5⟩ (by decide)
     (Or.inl rfl),
   c4_viewport_priority.2.2.2.2.2.1 ("wide".toList) (by decide)⟩

/-! Supporting lemmas for the script-stripping claim. -/

theorem startsWithCI_cons_lt_false (ps : List Char) (ch : Char) (cs : List Char)
    (h : ch.toLower ≠ '<') : startsWithCI ('<' :: ps) (ch :: cs) = false := by
  have hb : (('<' : Char).toLower == ch.toLower) = false := by
    rw [show ('<' : Char).toLower = '<' from by decide]
    exact beq_eq_false_iff_ne.mpr fun he => h he.symm
  simp only [startsWithCI, hb, Bool.false_and]

theorem dropThroughCI_skip_append (ps b c : List Char)
    (hb : ∀ ch ∈ b, ch.toLower ≠ '<') :
    dropThroughCI ('<' :: ps) (b ++ ('<' :: ps) ++ c) = some c := by
  induction b with
  | nil =>
    simp only [List.nil_append, List.cons_append, dropThroughCI, List.append_eq]
    have h1 : startsWithCI ('<' :: ps) ('<' :: (ps ++ c)) = true := by
      rw [← List.cons_append]
      exact startsWithCI_append _ _
    rw [h1]
    simp only [if_true]
    rw [← List.cons_append, List.drop_left]
  | cons ch b' ih =>
    simp only [List.cons_append, dropThroughCI, List.append_eq]
    rw [startsWithCI_cons_lt_false ps ch _ (hb ch (by simp))]
    simp only [Bool.false_eq_true, if_false]
    exact ih fun c2 hc2 => hb c2 (by simp [hc2])

theorem matchScriptAt_full (b c : List Char) (hb : ∀ ch ∈ b, ch.toLower ≠ '<') :
    matchScriptAt ("<script>".toList ++ b ++ scriptClosePat ++ c) = some c := by
  have hs : "<script>".toList ++ b ++ scriptClosePat ++ c =
      scriptOpenPat ++ ('>' :: (b ++ scriptClosePat ++ c)) := by
    rw [show "<script>".toList = scriptOpenPat ++ ['>'] from by decide]
    simp [List.append_assoc]
  rw [hs]
  unfold matchScriptAt
  rw [startsWithCI_append]
  simp only [if_true]
  have hdrop : (scriptOpenPat ++ ('>' :: (b ++ scriptClosePat ++ c))).drop 7 =
      '>' :: (b ++ scriptClosePat ++ c) := by
    rw [show 7 = scriptOpenPat.length from by decide, List.drop_left]
  rw [hdrop]
  simp only [dropThroughCI]
  rw [show startsWithCI ['>'] ('>' :: (b ++ scriptClosePat ++ c)) = true from by
    simp [startsWithCI]]
  simp only [if_true, List.drop_succ_cons, List.drop_zero, List.length_cons,
    List.length_nil]
  rw [show scriptClosePat = '<' :: "/script>".toList from by decide]
  exact dropThroughCI_skip_append _ b c hb

theorem stripScripts_append_clean (a x : List Char)
    (ha : ∀ ch ∈ a, ch.toLower ≠ '<') :
    stripScripts (a ++ x) = a ++ stripScripts x := by
  induction a with
  | nil => simp
  | cons ch a' ih =>
    have hnone : matchScriptAt (ch :: (a' ++ x)) = none := by
      unfold matchScriptAt
      rw [show scriptOpenPat = '<' :: "script".toList from by decide]
      rw [startsWithCI_cons_lt_false _ ch _ (ha ch (by simp))]
      simp
    calc stripScripts ((ch :: a') ++ x) = stripScripts (ch :: (a' ++ x)) := by simp
      _ = ch :: stripScripts (a' ++ x) := stripScripts_cons_none _ _ hnone
      _ = ch :: (a' ++ stripScripts x) := by
          rw [ih fun c2 hc2 => ha c2 (by simp [hc2])]
      _ = (ch :: a') ++ stripScripts x := rfl

/-- C8: sanitization returns its input unchanged when scripts are permitted;
when they are not, a complete script element is stripped from the content
(stated for a document `a ++ "<script>" ++ b ++ "</script>" ++ c` whose
parts `a` and `b` contain no `<`, which keeps the element's boundaries
unambiguous; the tail `c` is recursively sanitized). -/
theorem c8_sanitize_scripts :
    (∀ html, sanitizeHtml html true = html) ∧
    (∀ a b c : List Char, (∀ ch ∈ a, ch.toLower ≠ '<') → (∀ ch ∈ b, ch.toLower ≠ '<') →
      sanitizeHtml (a ++ "<script>".toList ++ b ++ "</script>".toList ++ c) false =
        a ++ sanitizeHtml c false) := by
  refine ⟨fun html => rfl, fun a b c ha hb => ?_⟩
  show stripScripts (a ++ "<script>".toList ++ b ++ "</script>".toList ++ c) =
    a ++ stripScripts c
  rw [show a ++ "<script>".toList ++ b ++ "</script>".toList ++ c =
      a ++ ("<script>".toList ++ (b ++ (scriptClosePat ++ c))) from by
    simp [List.append_assoc, scriptClosePat]]
  rw [stripScripts_append_clean a _ ha]
  congr 1
  have hm : matchScriptAt ("<script>".toList ++ (b ++ (scriptClosePat ++ c))) = some c := by
    have := matchScriptAt_full b c hb
    simpa [List.append_assoc] using this
  rw [show "<script>".toList ++ (b ++ (scriptClosePat ++ c)) =
      '<' :: ("script>".toList ++ (b ++ (scriptClosePat ++ c))) from by
    rw [show "<script>".toList = '<' :: "script>".toList from by decide, List.cons_append]]
  rw [stripScripts_cons_some _ _ _ (by
    rw [show '<' :: ("script>".toList ++ (b ++ (scriptClosePat ++ c))) =
        "<script>".toList ++ (b ++ (scriptClosePat ++ c)) from by
      rw [show "<script>".toList = '<' :: "script>".toList from by decide, List.cons_append]]
    exact hm)]

theorem c8_sanitize_scripts_witness :
    sanitizeHtml ("<p>t</p>".toList) true = "<p>t</p>".toList ∧
      sanitizeHtml ("Hi ".toList ++ "<script>".toList ++ "alert(1)".toList ++
          "</script>".toList ++ "rest".toList) false =
        "Hi ".toList ++ sanitizeHtml ("rest".toList) false :=
  ⟨c8_sanitize_scripts.1 _,
   c8_sanitize_scripts.2 ("Hi ".toList) ("alert(1)".toList) ("rest".toList)
     (by decide) (by decide)⟩

/-! Characterizations of `toPngModel` by outcome, shared by the sidecar and
intermediate-HTML claims. -/

theorem selectCapture_mode_mem (clip : Option Clip) (fp hc hcont : Bool) :
    (selectCapture clip fp hc hcont).2 ∈
      ["clip".toList, "fullPage".toList, "card".toList, "container".toList] := by
  cases clip with
  | some c => simp [selectCapture]
  | none => cases fp <;> cases hc <;> cases hcont <;> simp [selectCapture]

theorem prepare_viewport (env : ToPngEnv) (a : ToPngArgs) (p : Prep)
    (hp : prepare env a = .ok p) :
    p.viewport = resolveViewport (jsOrStr a.options.preset ("og".toList))
      a.options.width a.options.height a.options.clip := by
  unfold prepare at hp
  split at hp
  · split at hp
    · cases hp
    · split at hp
      · cases hp
      · split at hp
        · cases hp
        · injection hp with h2
          subst h2
          rfl
  · cases hp

theorem toPngModel_prep_error (env : ToPngEnv) (a : ToPngArgs) (e : PngError)
    (hp : prepare env a = .error e) : toPngModel env a = (.error e, []) := by
  unfold toPngModel
  rw [hp]

theorem toPngModel_unavailable (env : ToPngEnv) (a : ToPngArgs) (p : Prep)
    (hp : prepare env a = .ok p) (ho : env.outcome = .unavailable) :
    toPngModel env a =
      (.error .RenderEngineUnavailable,
       (if a.keepHtml && !jsTruthyS a.url then [Ev.write (outputHtmlOf a)] else []) ++
         (if jsTruthyS a.url then [] else [Ev.write (outputHtmlOf a)])) := by
  unfold toPngModel
  rw [hp, ho]

theorem toPngModel_crash (env : ToPngEnv) (a : ToPngArgs) (p : Prep)
    (hp : prepare env a = .ok p) (ho : env.outcome = .crash) :
    toPngModel env a =
      (.error .BrowserCrash,
       (if a.keepHtml && !jsTruthyS a.url then [Ev.write (outputHtmlOf a)] else []) ++
         (if jsTruthyS a.url then [] else [Ev.write (outputHtmlOf a)]) ++
         [Ev.browse (if jsTruthyS a.url then a.url.getD [] else fileUrlOf (outputHtmlOf a))
            (resolvedWaitUntil a.options) (resolvedTimeoutMs a.options)]) := by
  unfold toPngModel
  rw [hp, ho]

theorem toPngModel_success (env : ToPngEnv) (a : ToPngArgs) (p : Prep) (v : List Char)
    (hp : prepare env a = .ok p) (ho : env.outcome = .success v) :
    toPngModel env a =
      (.ok ⟨outputPngOf a,
            if a.keepHtml then some (outputHtmlOf a) else none,
            mkMeta env a p v
              (selectCapture a.options.clip a.options.full_page env.hasCard env.hasContainer).2,
            metaPathOf a⟩,
       (if a.keepHtml && !jsTruthyS a.url then [Ev.write (outputHtmlOf a)] else []) ++
         (if jsTruthyS a.url then [] else [Ev.write (outputHtmlOf a)]) ++
         [Ev.browse (if jsTruthyS a.url then a.url.getD [] else fileUrlOf (outputHtmlOf a))
            (resolvedWaitUntil a.options) (resolvedTimeoutMs a.options),
          Ev.shot
            (selectCapture a.options.clip a.options.full_page env.hasCard env.hasContainer).1
            (outputPngOf a)] ++
         (if !a.keepHtml && !jsTruthyS a.url then [Ev.del (outputHtmlOf a)] else []) ++
         [Ev.write (metaPathOf a)]) := by
  unfold toPngModel
  rw [hp, ho]

/-- C9: every successful conversion returns a metadata record destined for
the sidecar written alongside the primary output (path: output name with the
`.png` suffix replaced by `.meta.json`), containing the engine identifier
with its version, the generation timestamp, the preset name, the resolved
width and height, the device scale factor, the style name, a capture mode
among clip/fullPage/card/container, and the content-integrity hash of the
original source content or URL; the sidecar write appears in the trace. -/
theorem c9_metadata_sidecar (env : ToPngEnv) (a : ToPngArgs) (r : ToPngResult)
    (tr : List Ev) (h : toPngModel env a = (.ok r, tr)) :
    (∃ v, env.outcome = .success v ∧ r.meta.engine = "chromium:".toList ++ v) ∧
    r.meta.generatedAt = env.nowIso ∧
    r.meta.preset = jsOrStr a.options.preset ("og".toList) ∧
    (∃ p, prepare env a = .ok p ∧
      r.meta.width = p.viewport.1 ∧ r.meta.height = p.viewport.2 ∧
      p.viewport = resolveViewport (jsOrStr a.options.preset ("og".toList))
        a.options.width a.options.height a.options.clip ∧
      r.meta.inputHash = env.sha256hex (hashSourceOf a p.rawContent)) ∧
    r.meta.deviceScaleFactor = a.options.device_scale_factor.getD 2 ∧
    r.meta.style = a.style ∧
    r.meta.screenshotMode ∈
      ["clip".toList, "fullPage".toList, "card".toList, "container".toList] ∧
    r.pngPath = outputPngOf a ∧
    r.metaPath = metaPathOf a ∧
    Ev.write (metaPathOf a) ∈ tr := by
  cases hp : prepare env a with
  | error e =>
    rw [toPngModel_prep_error env a e hp] at h
    simp [Prod.mk.injEq] at h
  | ok p0 =>
    cases ho : env.outcome with
    | unavailable =>
      rw [toPngModel_unavailable env a p0 hp ho] at h
      simp [Prod.mk.injEq] at h
    | crash =>
      rw [toPngModel_crash env a p0 hp ho] at h
      simp [Prod.mk.injEq] at h
    | success v =>
      rw [toPngModel_success env a p0 v hp ho] at h
      injection h with h1 h2
      injection h1 with h3
      subst h3
      subst h2
      refine ⟨⟨v, rfl, rfl⟩, rfl, rfl,
        ⟨p0, rfl, rfl, rfl, prepare_viewport env a p0 hp, rfl⟩,
        rfl, rfl, selectCapture_mode_mem _ _ _ _, rfl, rfl, by simp⟩

/-- C10: for non-URL input that passes preparation, the intermediate HTML
file is written to the trace before any browser navigation, even when
`keepHtml` is false; and when `keepHtml` is false the file is deleted
exactly when rendering succeeds — so it exists during rendering and
persists when rendering fails. -/
theorem c10_intermediate_html (env : ToPngEnv) (a : ToPngArgs)
    (res : Except PngError ToPngResult) (tr : List Ev) (p : Prep)
    (h : toPngModel env a = (res, tr))
    (hp : prepare env a = .ok p)
    (hurl : jsTruthyS a.url = false) :
    Ev.write (outputHtmlOf a) ∈ tr ∧
    (∀ (t wp : List Char) (tm : ℚ) (pre suf : List Ev),
      tr = pre ++ Ev.browse t wp tm :: suf → Ev.write (outputHtmlOf a) ∈ pre) ∧
    (a.keepHtml = false → (Ev.del (outputHtmlOf a) ∈ tr ↔ res.isOk = true)) := by
  cases ho : env.outcome with
  | unavailable =>
    rw [toPngModel_unavailable env a p hp ho] at h
    injection h with h1 h2
    subst h1
    cases hk : a.keepHtml with
    | false =>
      have htr : tr = [Ev.write (outputHtmlOf a)] := by
        rw [← h2, hurl, hk]; simp
      refine ⟨by simp [htr], fun t wp tm pre suf heq => ?_, fun _ => ?_⟩
      · rw [htr] at heq
        have hb : Ev.browse t wp tm ∈ ([Ev.write (outputHtmlOf a)] : List Ev) := by
          rw [heq]; simp
        simp at hb
      · rw [htr]; simp [Except.isOk, Except.toBool]
    | true =>
      have htr : tr = [Ev.write (outputHtmlOf a), Ev.write (outputHtmlOf a)] := by
        rw [← h2, hurl, hk]; simp
      refine ⟨by simp [htr], fun t wp tm pre suf heq => ?_, fun hk2 => ?_⟩
      · rw [htr] at heq
        have hb : Ev.browse t wp tm ∈
            ([Ev.write (outputHtmlOf a), Ev.write (outputHtmlOf a)] : List Ev) := by
          rw [heq]; simp
        simp at hb
      · simp at hk2
  | crash =>
    rw [toPngModel_crash env a p hp ho] at h
    injection h with h1 h2
    subst h1
    cases hk : a.keepHtml with
    | false =>
      have htr : tr = [Ev.write (outputHtmlOf a),
          Ev.browse (fileUrlOf (outputHtmlOf a)) (resolvedWaitUntil a.options)
            (resolvedTimeoutMs a.options)] := by
        rw [← h2, hurl, hk]; simp
      refine ⟨by simp [htr], fun t wp tm pre suf heq => ?_, fun _ => ?_⟩
      · rw [htr] at heq
        rcases pre with _ | ⟨e1, _ | ⟨e2, pre⟩⟩ <;> simp_all
      · rw [htr]; simp [Except.isOk, Except.toBool]
    | true =>
      have htr : tr = [Ev.write (outputHtmlOf a), Ev.write (outputHtmlOf a),
          Ev.browse (fileUrlOf (outputHtmlOf a)) (resolvedWaitUntil a.options)
            (resolvedTimeoutMs a.options)] := by
        rw [← h2, hurl, hk]; simp
      refine ⟨by simp [htr], fun t wp tm pre suf heq => ?_, fun hk2 => ?_⟩
      · rw [htr] at heq
        rcases pre with _ | ⟨e1, _ | ⟨e2, _ | ⟨e3, pre⟩⟩⟩ <;> simp_all
      · simp at hk2
  | success v =>
    rw [toPngModel_success env a p v hp ho] at h
    injection h with h1 h2
    subst h1
    cases hk : a.keepHtml with
    | false =>
      have htr : tr = [Ev.write (outputHtmlOf a),
          Ev.browse (fileUrlOf (outputHtmlOf a)) (resolvedWaitUntil a.options)
            (resolvedTimeoutMs a.options),
          Ev.shot
            (selectCapture a.options.clip a.options.full_page env.hasCard env.hasContainer).1
            (outputPngOf a),
          Ev.del (outputHtmlOf a), Ev.write (metaPathOf a)] := by
        rw [← h2, hurl, hk]; simp
      refine ⟨by simp [htr], fun t wp tm pre suf heq => ?_, fun _ => ?_⟩
      · rw [htr] at heq
        rcases pre with _ | ⟨e1, _ | ⟨e2, _ | ⟨e3, _ | ⟨e4, _ | ⟨e5, pre⟩⟩⟩⟩⟩ <;> simp_all
      · rw [htr]; simp [Except.isOk, Except.toBool]
    | true =>
      have htr : tr = [Ev.write (outputHtmlOf a), Ev.write (outputHtmlOf a),
          Ev.browse (fileUrlOf (outputHtmlOf a)) (resolvedWaitUntil a.options)
            (resolvedTimeoutMs a.options),
          Ev.shot
            (selectCapture a.options.clip a.options.full_page env.hasCard env.hasContainer).1
            (outputPngOf a),
          Ev.write (metaPathOf a)] := by
        rw [← h2, hurl, hk]; simp
      refine ⟨by simp [htr], fun t wp tm pre suf heq => ?_, fun hk2 => ?_⟩
      · rw [htr] at heq
        rcases pre with _ | ⟨e1, _ | ⟨e2, _ | ⟨e3, _ | ⟨e4, _ | ⟨e5, pre⟩⟩⟩⟩⟩ <;> simp_all
      · simp at hk2

/-! Concrete sample runs used by the sidecar and intermediate-HTML
witnesses. -/

/-- A concrete external environment whose browser succeeds. -/
def sampleEnv : ToPngEnv :=
  ⟨fun _ => none,
   fun _ => some ("<html><head></head><body>B</body></html>".toList),
   fun x => x,
   fun _ => "deadbeef".toList,
   "2026-01-01T00:00:00.000Z".toList,
   .success ("1.0".toList),
   false, false⟩

/-- A concrete `toPng` call: inline content, default options. -/
def sampleArgs : ToPngArgs :=
  ⟨none, some ("hello".toList), none, some ("out.png".toList), "card-clean".toList,
   none, true, false, none,
   ⟨none, none, none, none, none, false, none, none, none, none⟩⟩

/-- The result `toPngModel sampleEnv sampleArgs` computes. -/
def sampleResult : ToPngResult :=
  ⟨"out.png".toList, some ("out.html".toList),
   ⟨"chromium:1.0".toList, "2026-01-01T00:00:00.000Z".toList, "og".toList,
    1200, 630, 2, "card-clean".toList, "fullPage".toList, "deadbeef".toList⟩,
   "out.meta.json".toList⟩

/-- The trace `toPngModel sampleEnv sampleArgs` computes. -/
def sampleTrace : List Ev :=
  [.write ("out.html".toList), .write ("out.html".toList),
   .browse ("file://out.html".toList) ("networkidle".toList) 30000,
   .shot .fullPage ("out.png".toList), .write ("out.meta.json".toList)]

set_option maxRecDepth 10000 in
theorem c9_metadata_sidecar_witness :
    Ev.write (metaPathOf sampleArgs) ∈ sampleTrace ∧
      sampleResult.meta.screenshotMode ∈
        ["clip".toList, "fullPage".toList, "card".toList, "container".toList] := by
  have h := c9_metadata_sidecar sampleEnv sampleArgs sampleResult sampleTrace rfl
  exact ⟨h.2.2.2.2.2.2.2.2.2, h.2.2.2.2.2.2.1⟩

/-- The same environment as `sampleEnv` but the browser call throws. -/
def sampleEnvCrash : ToPngEnv :=
  ⟨fun _ => none,
   fun _ => some ("<html><head></head><body>B</body></html>".toList),
   fun x => x,
   fun _ => "deadbeef".toList,
   "2026-01-01T00:00:00.000Z".toList,
   .crash,
   false, false⟩

/-- The same call as `sampleArgs` but with `keepHtml` false. -/
def sampleArgsNoKeep : ToPngArgs :=
  ⟨none, some ("hello".toList), none, some ("out.png".toList), "card-clean".toList,
   none, false, false, none,
   ⟨none, none, none, none, none, false, none, none, none, none⟩⟩

/-- What `prepare` computes for the sample call. -/
def samplePrep : Prep :=
  ⟨"hello".toList, "<html><head></head><body>B</body></html>".toList, (1200, 630)⟩

set_option maxRecDepth 10000 in
theorem c10_intermediate_html_witness :
    Ev.write (outputHtmlOf sampleArgsNoKeep) ∈
        ([.write ("out.html".toList),
          .browse ("file://out.html".toList) ("networkidle".toList) 30000] : List Ev) ∧
      (Ev.del (outputHtmlOf sampleArgsNoKeep) ∈
          ([.write ("out.html".toList),
            .browse ("file://out.html".toList) ("networkidle".toList) 30000] : List Ev) ↔
        (Except.error PngError.BrowserCrash : Except PngError ToPngResult).isOk = true) := by
  have h := c10_intermediate_html sampleEnvCrash sampleArgsNoKeep
    (.error .BrowserCrash)
    [.write ("out.html".toList),
     .browse ("file://out.html".toList) ("networkidle".toList) 30000]
    samplePrep rfl rfl rfl
  exact ⟨h.1, h.2.2 rfl⟩

end WebToPng
